import Mathlib

/-!
Verification of the deterministic ZIP archive builder
(`create_zip_with_multiple_files` in `src/__main__.py`).

The Python code is shallowly embedded as executable Lean definitions:

* A filesystem is a flat association list from normalized path components to
  file metadata (`FS`).  The order of the list records the order in which the
  host filesystem enumerates directory entries (the order `os.walk` receives
  children in before the code sorts them), which is exactly the incidental
  state the spec claims the builder is independent of.
* Python `str` comparison is code-point lexicographic; it is embedded as
  `strLeB` on `List Char`.  `str.lower` is embedded as `pyLower` (ASCII
  lowering; every name appearing in the development is ASCII).
* Python `list.sort` / `sorted` are stable; `List.insertionSort` from Mathlib
  is also stable (it inserts a later element after earlier equal-key
  elements), so sorting with the key order embeds Python's sorts exactly.
* `os.path` functions (`normpath`, `basename`, `dirname`, `join`, `relpath`,
  `splitext`) are embedded in their POSIX form (`os.sep = '/'`,
  `os.name ≠ 'nt'`, so the Windows drive-letter branches of the source are
  dead code and the `.replace(os.sep, '/')` calls are identity).
* `os.access(p, os.X_OK)` is embedded as "some execute permission bit is set
  on the file's mode".
* `time.localtime` is embedded as the civil-calendar conversion of a host in
  the UTC timezone.
* Writing an entry into the ZIP container is embedded as appending a
  `ZipEntry` record (name, date_time, external_attr, compression fields,
  size, raw bytes) to the destination's list of entries: two builds produce
  byte-identical archives iff they produce the same list of `ZipEntry`
  records, since the container serialization of a record sequence is fixed
  (deflate at the fixed level 6 is deterministic).
* Exceptions are embedded in the `error` field of `BuildResult`; text printed
  to stdout in the `printed` field; the function's return value (Python
  returns `None`: there is no `return` statement) in the `ret` field, typed
  as `Option (String × String)` so that "returns an archive path and a hash"
  is statable: `none` is Python's `None`.
-/

/-! ## Python string comparison and lowering -/

/-- Python `<=` on strings: code-point lexicographic order, on `List Char`. -/
def strLeB : List Char → List Char → Bool
  | [], _ => true
  | _ :: _, [] => false
  | a :: as, b :: bs => if a = b then strLeB as bs else decide (a < b)

/-- Python `str.lower` for ASCII characters. -/
def lowerChar (c : Char) : Char :=
  if 'A' ≤ c ∧ c ≤ 'Z' then Char.ofNat (c.toNat + 32) else c

/-- Python `str.lower` (ASCII fragment). -/
def pyLower (s : String) : String := String.mk (s.data.map lowerChar)

theorem strLeB_refl (a : List Char) : strLeB a a = true := by
  induction a with
  | nil => rfl
  | cons c cs ih => simp [strLeB, ih]

theorem strLeB_total (a b : List Char) : strLeB a b = true ∨ strLeB b a = true := by
  induction a generalizing b with
  | nil => left; rfl
  | cons c cs ih =>
    cases b with
    | nil => right; rfl
    | cons d ds =>
      by_cases h : c = d
      · subst h
        simpa [strLeB] using ih ds
      · rcases lt_or_gt_of_ne h with hlt | hgt
        · left; simp [strLeB, h, hlt]
        · right; simp [strLeB, Ne.symm h, hgt]

theorem strLeB_trans : ∀ {a b c : List Char},
    strLeB a b = true → strLeB b c = true → strLeB a c = true
  | [], _, _, _, _ => rfl
  | x :: xs, [], _, h1, _ => by simp [strLeB] at h1
  | _ :: _, _ :: _, [], _, h2 => by simp [strLeB] at h2
  | x :: xs, y :: ys, z :: zs, h1, h2 => by
    by_cases hxy : x = y
    · subst hxy
      by_cases hxz : x = z
      · subst hxz
        simp only [strLeB, if_pos rfl] at h1 h2 ⊢
        exact strLeB_trans h1 h2
      · simp only [strLeB, if_pos rfl] at h1
        simpa [strLeB, hxz] using h2
    · by_cases hyz : y = z
      · subst hyz
        simpa [strLeB, hxy] using h1
      · simp only [strLeB, if_neg hxy, decide_eq_true_eq] at h1
        simp only [strLeB, if_neg hyz, decide_eq_true_eq] at h2
        by_cases hxz : x = z
        · subst hxz; exact absurd (lt_trans h1 h2) (lt_irrefl x)
        · simp [strLeB, hxz, lt_trans h1 h2]

theorem strLeB_antisymm : ∀ {a b : List Char},
    strLeB a b = true → strLeB b a = true → a = b
  | [], [], _, _ => rfl
  | [], _ :: _, _, h2 => by simp [strLeB] at h2
  | _ :: _, [], h1, _ => by simp [strLeB] at h1
  | c :: cs, d :: ds, h1, h2 => by
    by_cases h : c = d
    · subst h
      simp only [strLeB, if_pos rfl] at h1 h2
      rw [strLeB_antisymm h1 h2]
    · simp only [strLeB, if_neg h, decide_eq_true_eq] at h1
      simp only [strLeB, if_neg (Ne.symm h), decide_eq_true_eq] at h2
      exact absurd (lt_trans h1 h2) (lt_irrefl c)

/-- Python `<=` on strings, as a relation on `String`. -/
def pathLe (a b : String) : Prop := strLeB a.data b.data = true

instance : DecidableRel pathLe := fun a b =>
  inferInstanceAs (Decidable (strLeB a.data b.data = true))

instance : IsTotal String pathLe := ⟨fun a b => strLeB_total a.data b.data⟩

instance : IsTrans String pathLe := ⟨fun _ _ _ => strLeB_trans⟩

instance : IsAntisymm String pathLe :=
  ⟨fun a b h1 h2 => by
    cases a; cases b
    exact congrArg String.mk (strLeB_antisymm h1 h2)⟩

/-- The case-insensitive order on names: compare the `str.lower` images. -/
def arcNameLe (a b : String) : Prop :=
  strLeB (pyLower a).data (pyLower b).data = true

instance : DecidableRel arcNameLe := fun a b =>
  inferInstanceAs (Decidable (strLeB (pyLower a).data (pyLower b).data = true))

instance : IsTotal String arcNameLe :=
  ⟨fun a b => strLeB_total (pyLower a).data (pyLower b).data⟩

instance : IsTrans String arcNameLe := ⟨fun _ _ _ => strLeB_trans⟩

/-- `sorted(paths)` — Python's stable sort under case-sensitive string order
(line 22 of the source). -/
def pySorted (l : List String) : List String := List.insertionSort pathLe l

/-- `dirs.sort(key=str.lower)` / `files.sort(key=str.lower)` (lines 53-54). -/
def pySortLower (l : List String) : List String := List.insertionSort arcNameLe l

/-- The key order of `all_files_to_add.sort(key=lambda x: x[1].lower())`
(line 76): compare the lowered archive names of `(file_path, arcname)`
pairs. -/
def arcLe (a b : String × String) : Prop := arcNameLe a.2 b.2

instance : DecidableRel arcLe := fun a b =>
  inferInstanceAs (Decidable (strLeB (pyLower a.2).data (pyLower b.2).data = true))

instance : IsTotal (String × String) arcLe :=
  ⟨fun a b => strLeB_total (pyLower a.2).data (pyLower b.2).data⟩

instance : IsTrans (String × String) arcLe := ⟨fun _ _ _ => strLeB_trans⟩

/-- `all_files_to_add.sort(key=lambda x: x[1].lower())` (line 76). -/
def pySortByArc (l : List (String × String)) : List (String × String) :=
  List.insertionSort arcLe l

/-! ## POSIX `os.path` functions -/

/-- Split a character list at `'/'` (semantics of `s.split('/')`). -/
def splitChars : List Char → List (List Char)
  | [] => [[]]
  | c :: cs =>
    let r := splitChars cs
    if c = '/' then [] :: r
    else
      match r with
      | [] => [[c]]
      | h :: t => (c :: h) :: t

/-- `p.split('/')`. -/
def splitSep (s : String) : List String := (splitChars s.data).map String.mk

/-- Join components with `'/'`. -/
def joinSep : List String → String
  | [] => ""
  | [x] => x
  | x :: xs => x ++ "/" ++ joinSep xs

/-- `os.path.basename` (POSIX): the part after the last `'/'`. -/
def basename (p : String) : String := (splitSep p).getLastD ""

/-- Drop trailing `'/'` characters. -/
def rstripSlashes (s : String) : String :=
  String.mk ((s.data.reverse.dropWhile (fun c => c == '/')).reverse)

/-- `os.path.dirname` (POSIX): the part before the last `'/'`, with trailing
slashes stripped unless the head is all slashes. -/
def dirname (p : String) : String :=
  let parts := splitSep p
  if parts.length ≤ 1 then ""
  else if parts.dropLast.all (fun c => c == "") then "/"
  else rstripSlashes (joinSep parts.dropLast)

/-- `os.path.join` (POSIX, two arguments). -/
def pjoin (a b : String) : String :=
  if b.data.head? = some '/' then b
  else if a = "" then b
  else if a.data.getLast? = some '/' then a ++ b
  else a ++ "/" ++ b

/-- One step of `os.path.normpath` segment processing. -/
def normSegAcc (absolute : Bool) (acc : List String) (c : String) : List String :=
  if c = ".." then
    if acc = [] then (if absolute then [] else [".."])
    else if acc.getLast? = some ".." then acc ++ [".."]
    else acc.dropLast
  else acc ++ [c]

/-- `os.path.normpath` (POSIX): drop empty and `"."` segments, resolve
`".."`, keep a leading slash for absolute paths. -/
def normpath (p : String) : String :=
  let absolute := p.data.head? = some '/'
  let comps := (splitSep p).filter (fun c => !(c == "" || c == "."))
  let comps2 := comps.foldl (normSegAcc absolute) []
  if absolute then "/" ++ joinSep comps2
  else if comps2 = [] then "." else joinSep comps2

/-- Normalized absolute components of a path interpreted from the process
working directory, which the model places at the filesystem root (the
components of `os.path.abspath(p)`).  Used to address the model filesystem
and as the component lists of `os.path.relpath`. -/
def normComps (p : String) : List String :=
  (splitSep p).foldl
    (fun acc c =>
      if c = "" then acc
      else if c = "." then acc
      else if c = ".." then acc.dropLast
      else acc ++ [c]) []

/-- Length of the common leading run of two component lists. -/
def commonLen : List String → List String → Nat
  | a :: as, b :: bs => if a = b then commonLen as bs + 1 else 0
  | _, _ => 0

/-- `os.path.relpath` (POSIX), with both arguments resolved from the same
working directory. -/
def relpath (p start : String) : String :=
  let pl := normComps p
  let sl := normComps start
  let i := commonLen pl sl
  let rel := List.replicate (sl.length - i) ".." ++ pl.drop i
  if rel = [] then "." else joinSep rel

/-- The extension component of `os.path.splitext(p)`: from the last dot of
the basename, provided some earlier character of the basename is not a
dot. -/
def splitextExt (p : String) : String :=
  let b := (basename p).data
  match b.reverse.findIdx? (fun c => c == '.') with
  | none => ""
  | some j =>
    let i := b.length - 1 - j
    if (b.take i).any (fun c => !(c == '.')) then String.mk (b.drop i) else ""

/-! ## The model filesystem -/

/-- The metadata of one regular file: raw content bytes, `st_mtime`,
`st_mode` permission bits, and whether `open(path, 'rb')` succeeds. -/
structure FileMeta where
  content : List Nat
  mtime : Nat
  mode : Nat
  readable : Bool
deriving DecidableEq

/-- A filesystem: a flat association list from normalized path components to
file metadata.  Directories exist implicitly as proper key prefixes.  The
list order records the order in which the host filesystem enumerates
directory children (what `os.walk` sees before the code sorts). -/
abbrev FS := List (List String × FileMeta)

/-- `open(p, 'rb')` / `os.stat(p)`: find the file the path addresses. -/
def lookupMeta (fs : FS) (p : String) : Option FileMeta :=
  (fs.find? (fun e => e.1 == normComps p)).map (fun e => e.2)

/-- `os.path.isfile`. -/
def isfile (fs : FS) (p : String) : Bool := (lookupMeta fs p).isSome

/-- Does key `k` lie strictly below directory components `c`? -/
def underDir (c k : List String) : Bool :=
  decide (c.length < k.length) && (k.take c.length == c)

/-- `os.path.isdir`. -/
def isdir (fs : FS) (p : String) : Bool := fs.any (fun e => underDir (normComps p) e.1)

/-- `os.path.exists`. -/
def pathExists (fs : FS) (p : String) : Bool := isfile fs p || isdir fs p

/-- Deduplicate, keeping first occurrences (`seen` accumulates emitted
names). -/
def dedupAux (seen : List String) : List String → List String
  | [] => []
  | x :: xs => if seen.contains x then dedupAux seen xs else x :: dedupAux (x :: seen) xs

/-- Names of the regular files directly inside directory `c`, in filesystem
enumeration order. -/
def childFiles (fs : FS) (c : List String) : List String :=
  dedupAux []
    (((fs.filter (fun e => e.1.length == c.length + 1 && e.1.take c.length == c)).map
      (fun e => e.1.getLastD "")))

/-- Names of the subdirectories directly inside directory `c`, in filesystem
enumeration order. -/
def childDirs (fs : FS) (c : List String) : List String :=
  dedupAux []
    (((fs.filter (fun e => decide (c.length + 1 < e.1.length) && e.1.take c.length == c)).map
      (fun e => (e.1.drop c.length).headD "")))

/-- The `os.walk(path)` loop of lines 51-57: at each directory, sort file
and subdirectory names with `key=str.lower` (stable, lines 53-54), emit
`os.path.join(root, file)` for the files, then descend into the sorted
subdirectories.  `fuel` bounds the recursion depth; it is instantiated with
a bound exceeding every key length, so it never runs out. -/
def walkGo (fs : FS) : Nat → String → List String → List String
  | 0, _, _ => []
  | fuel + 1, root, c =>
    let files := pySortLower (childFiles fs c)
    let dirs := pySortLower (childDirs fs c)
    files.map (fun f => pjoin root f) ++
      (dirs.map (fun d => walkGo fs fuel (pjoin root d) (c ++ [d]))).flatten

/-- An upper bound on the depth of the filesystem tree. -/
def maxKeyLen (fs : FS) : Nat := fs.foldl (fun m e => max m e.1.length) 0

/-- All file paths produced by the `os.walk(path)` loop, in emission
order. -/
def walkFiles (fs : FS) (p : String) : List String := walkGo fs (maxKeyLen fs + 1) p (normComps p)

/-! ## First pass: collecting `all_files_to_add` (lines 30-76) -/

/-- Archive name of a standalone file input (lines 37-45): the normalized
path if `preserve_structure`, else the basename.  (POSIX host: the
separator replacement is the identity and the Windows drive-letter branch
is dead.) -/
def fileArc (preserve_structure : Bool) (p : String) : String :=
  if preserve_structure then normpath p else basename p

/-- Archive name of a file found under a directory input (lines 59-69):
the normalized walk path if `preserve_structure`, else the path relative to
the directory's parent, normalized. -/
def dirFileArc (preserve_structure : Bool) (fp dirPath : String) : String :=
  if preserve_structure then normpath fp
  else normpath (relpath fp (dirname dirPath))

/-- Lines 33-73: for each path in order, collect `(file_path, arcname)`
pairs; a missing path prints `Warning: Path not found: ...` and is
skipped.  Returns (collected pairs, printed warnings). -/
def collect (fs : FS) (preserve_structure : Bool) :
    List String → List (String × String) × List String
  | [] => ([], [])
  | p :: rest =>
    let r := collect fs preserve_structure rest
    if isfile fs p then ((p, fileArc preserve_structure p) :: r.1, r.2)
    else if isdir fs p then
      (((walkFiles fs p).map (fun fp => (fp, dirFileArc preserve_structure fp p))) ++ r.1, r.2)
    else (r.1, ("Warning: Path not found: " ++ p) :: r.2)

/-! ## Second pass: writing entries (lines 79-128) -/

/-- One written ZIP member: the fields the code sets on `ZipInfo` plus the
raw bytes handed to `writestr`.  Two builds produce byte-identical archive
files iff they produce the same entry sequence (serialization of the record
sequence, including deflate at the fixed level, is a fixed function). -/
structure ZipEntry where
  filename : String
  date_time : Nat × Nat × Nat × Nat × Nat × Nat
  external_attr : Nat
  compress_type : Nat
  compresslevel : Nat
  file_size : Nat
  data : List Nat
deriving DecidableEq

/-- `zipfile.ZIP_DEFLATED`. -/
def ZIP_DEFLATED : Nat := 8

/-- Civil date (year, month, day) from days since 1970-01-01. -/
def civilFromDays (z0 : Nat) : Nat × Nat × Nat :=
  let z := z0 + 719468
  let era := z / 146097
  let doe := z % 146097
  let yoe := (doe - doe / 1460 + doe / 36524 - doe / 146096) / 365
  let y := yoe + era * 400
  let doy := doe - (365 * yoe + yoe / 4 - yoe / 100)
  let mp := (5 * doy + 2) / 153
  let d := doy - (153 * mp + 2) / 5 + 1
  let m := if mp < 10 then mp + 3 else mp - 9
  (if m ≤ 2 then y + 1 else y, m, d)

/-- `time.localtime(t)[:6]`, modelled for a host in the UTC timezone. -/
def localtime6 (t : Nat) : Nat × Nat × Nat × Nat × Nat × Nat :=
  let days := t / 86400
  let rem := t % 86400
  let c := civilFromDays days
  (c.1, c.2.1, c.2.2, rem / 3600, (rem % 3600) / 60, rem % 60)

/-- The fixed allow-list of executable-style extensions (line 99). -/
def executable_extensions : List String :=
  [".sh", ".py", ".pl", ".rb", ".js", ".exe", ".bat", ".cmd"]

/-- `os.access(p, os.X_OK)`: some execute permission bit is set. -/
def anyExecBit (mode : Nat) : Bool := decide (mode &&& 0o111 ≠ 0)

/-- Lines 99-104: executable by extension allow-list or by a host execute
permission bit. -/
def is_executable (fp : String) (m : FileMeta) : Bool :=
  executable_extensions.contains (pyLower (splitextExt fp)) || anyExecBit m.mode

/-- Lines 85-124: build the `ZipInfo`-plus-content record for one file. -/
def mkEntry (deterministic : Bool) (fp : String) (m : FileMeta) (arcname : String) : ZipEntry :=
  { filename := arcname
    date_time := if deterministic then (1980, 1, 1, 0, 0, 0) else localtime6 m.mtime
    external_attr :=
      if deterministic then
        (if is_executable fp m then (0o755 &&& 0o777) <<< 16 else (0o644 &&& 0o777) <<< 16)
      else (m.mode &&& 0o777) <<< 16
    compress_type := ZIP_DEFLATED
    compresslevel := 6
    file_size := m.content.length
    data := m.content }

/-- Lines 79-128: write each collected file to the archive in order.  A
failed `open` raises, aborting the loop: the returned entry list is what
already reached the destination when the exception propagated.  Returns
(entries written, `Added file` log lines, exception if any). -/
def writeEntries (fs : FS) (deterministic : Bool) :
    List (String × String) → List ZipEntry × List String × Option String
  | [] => ([], [], none)
  | (fp, arc) :: rest =>
    match lookupMeta fs fp with
    | none => ([], [], some ("FileNotFoundError: " ++ fp))
    | some m =>
      if m.readable then
        let r := writeEntries fs deterministic rest
        (mkEntry deterministic fp m arc :: r.1,
         ("Added file: " ++ fp ++ " -> " ++ arc) :: r.2.1, r.2.2)
      else ([], [], some ("PermissionError: " ++ fp))

/-- Everything observable about one call of the function: the destination
path, the entry sequence present in the destination file afterwards, the
printed lines, the propagated exception (if any), and the Python return
value (`none` embeds `None`). -/
structure BuildResult where
  dest : String
  entries : List ZipEntry
  printed : List String
  error : Option String
  ret : Option (String × String)
deriving DecidableEq

/-- The body of `create_zip_with_multiple_files` after `sorted(paths)`. -/
def buildFromSorted (fs : FS) (zip_filename : String)
    (preserve_structure deterministic : Bool) (sorted_paths : List String) : BuildResult :=
  let c := collect fs preserve_structure sorted_paths
  let all_files_to_add := pySortByArc c.1
  let w := writeEntries fs deterministic all_files_to_add
  { dest := zip_filename
    entries := w.1
    printed := c.2 ++ w.2.1
    error := w.2.2
    ret := none }

/-- `create_zip_with_multiple_files(zip_filename, paths, preserve_structure,
deterministic)` — lines 10-128 of `src/__main__.py`. -/
def create_zip_with_multiple_files (fs : FS) (zip_filename : String) (paths : List String)
    (preserve_structure deterministic : Bool) : BuildResult :=
  buildFromSorted fs zip_filename preserve_structure deterministic (pySorted paths)

/-! ## General lemmas about the embedded build -/

/-- Python's `sorted` is insensitive to permutations of its input: sorted
permutations under an antisymmetric total order coincide. -/
theorem pySorted_eq_of_perm {l l' : List String} (h : l.Perm l') : pySorted l = pySorted l' :=
  List.eq_of_perm_of_sorted
    ((List.perm_insertionSort pathLe l).trans (h.trans (List.perm_insertionSort pathLe l').symm))
    (List.sorted_insertionSort pathLe l)
    (List.sorted_insertionSort pathLe l')

/-- Every entry produced by the write loop comes from a collected
`(file_path, arcname)` pair whose file exists and is readable, via
`mkEntry`. -/
theorem mem_writeEntries {fs : FS} {det : Bool} : ∀ {l : List (String × String)} {e : ZipEntry},
    e ∈ (writeEntries fs det l).1 →
    ∃ fp arc m, (fp, arc) ∈ l ∧ lookupMeta fs fp = some m ∧ m.readable = true ∧
      e = mkEntry det fp m arc
  | [], e, h => by simp [writeEntries] at h
  | (fp, arc) :: rest, e, h => by
    rw [writeEntries] at h
    cases hm : lookupMeta fs fp with
    | none => rw [hm] at h; dsimp only at h; simp at h
    | some m =>
      rw [hm] at h
      dsimp only at h
      cases hr : m.readable with
      | false => rw [hr] at h; simp at h
      | true =>
        rw [hr] at h
        simp only [if_true, List.mem_cons] at h
        rcases h with he | ht
        · exact ⟨fp, arc, m, List.mem_cons_self _ _, hm, hr, he⟩
        · obtain ⟨fp', arc', m', hmem, hlk, hrd, he⟩ := mem_writeEntries ht
          exact ⟨fp', arc', m', List.mem_cons_of_mem _ hmem, hlk, hrd, he⟩

/-- When the write loop finishes without an exception, the archive-name
sequence of the written entries is exactly the arcname sequence of its
input list. -/
theorem writeEntries_names_of_ok {fs : FS} {det : Bool} : ∀ {l : List (String × String)},
    (writeEntries fs det l).2.2 = none →
    (writeEntries fs det l).1.map ZipEntry.filename = l.map Prod.snd
  | [], _ => rfl
  | (fp, arc) :: rest, h => by
    rw [writeEntries] at h ⊢
    cases hm : lookupMeta fs fp with
    | none => rw [hm] at h; simp at h
    | some m =>
      rw [hm] at h
      dsimp only at h ⊢
      by_cases hr : m.readable = true
      · rw [if_pos hr] at h ⊢
        dsimp only at h ⊢
        simp only [List.map_cons]
        rw [writeEntries_names_of_ok h]
        rfl
      · rw [if_neg hr] at h
        simp at h

/-- The archive-name sequence of the written entries is always an initial
segment of the arcname sequence of the input list (the loop aborts at the
first failure). -/
theorem writeEntries_names_take (fs : FS) (det : Bool) : ∀ l : List (String × String), ∃ n,
    (writeEntries fs det l).1.map ZipEntry.filename = (l.map Prod.snd).take n
  | [] => ⟨0, rfl⟩
  | (fp, arc) :: rest => by
    rw [writeEntries]
    cases hm : lookupMeta fs fp with
    | none => exact ⟨0, rfl⟩
    | some m =>
      dsimp only
      by_cases hr : m.readable = true
      · rw [if_pos hr]
        obtain ⟨n, hn⟩ := writeEntries_names_take fs det rest
        refine ⟨n + 1, ?_⟩
        simp only [List.map_cons, List.take_succ_cons, hn]
        rfl
      · rw [if_neg hr]
        exact ⟨0, rfl⟩

/-- The write result for one collected pair, as an `Option`: `none` when
opening the file raises. -/
def entryOf (fs : FS) (det : Bool) (pa : String × String) : Option ZipEntry :=
  match lookupMeta fs pa.1 with
  | none => none
  | some m => if m.readable then some (mkEntry det pa.1 m pa.2) else none

/-- The entries left in the destination are those of a take-n initial
segment of the input list — also when an exception aborts the loop: the
partial output stays.  On a clean run the segment is the whole list. -/
theorem writeEntries_partial (fs : FS) (det : Bool) : ∀ l : List (String × String), ∃ n,
    (writeEntries fs det l).1 = (l.take n).filterMap (entryOf fs det) ∧
    ((writeEntries fs det l).2.2 = none → n = l.length)
  | [] => ⟨0, rfl, fun _ => rfl⟩
  | (fp, arc) :: rest => by
    rw [writeEntries]
    cases hm : lookupMeta fs fp with
    | none => exact ⟨0, rfl, by simp⟩
    | some m =>
      dsimp only
      by_cases hr : m.readable = true
      · rw [if_pos hr]
        obtain ⟨n, hn, hlen⟩ := writeEntries_partial fs det rest
        refine ⟨n + 1, ?_, ?_⟩
        · dsimp only
          rw [List.take_succ_cons, List.filterMap_cons]
          simp only [entryOf, hm, hr, if_true, hn]
        · intro h
          dsimp only at h
          simp only [List.length_cons, hlen h]
      · rw [if_neg hr]
        exact ⟨0, rfl, by simp⟩

/-- The warnings printed by the first pass are exactly one
`Warning: Path not found` line per non-existing input path, in order. -/
theorem collect_warnings (fs : FS) (ps : Bool) : ∀ l : List String,
    (collect fs ps l).2 =
      (l.filter (fun p => !(pathExists fs p))).map
        (fun p => "Warning: Path not found: " ++ p)
  | [] => rfl
  | p :: rest => by
    rw [collect]
    cases hf : isfile fs p with
    | true =>
      have hex : pathExists fs p = true := by simp [pathExists, hf]
      simp only [if_true, List.filter_cons, hex, Bool.not_true, if_false]
      exact collect_warnings fs ps rest
    | false =>
      cases hd : isdir fs p with
      | true =>
        have hex : pathExists fs p = true := by simp [pathExists, hd]
        simp only [Bool.false_eq_true, if_false, if_true, List.filter_cons, hex, Bool.not_true]
        exact collect_warnings fs ps rest
      | false =>
        have hex : pathExists fs p = false := by simp [pathExists, hf, hd]
        simp only [Bool.false_eq_true, if_false, List.filter_cons, hex, Bool.not_false, if_true,
          List.map_cons]
        rw [collect_warnings fs ps rest]

/-! ## The claims -/

/-- C1 (amended): the build operation creates/overwrites the archive at the
destination as a side effect and returns `None`; it computes and returns no
composite content hash (there is no hash computation anywhere in
`create_zip_with_multiple_files`). -/
theorem C1_theorem (fs : FS) (zf : String) (paths : List String) (ps det : Bool) :
    (create_zip_with_multiple_files fs zf paths ps det).ret = none := rfl

/-- C1 counterexample: on a concrete existing input the build returns
`None` — not a pair of archive path and composite hash — even though it did
write an entry to the destination. -/
theorem C1_counterexample :
    (create_zip_with_multiple_files [(["hello.txt"], ⟨[104, 105], 11, 0o644, true⟩)]
      "lambda_deployment.zip" ["hello.txt"] false true).ret = none ∧
    (create_zip_with_multiple_files [(["hello.txt"], ⟨[104, 105], 11, 0o644, true⟩)]
      "lambda_deployment.zip" ["hello.txt"] false true).entries ≠ [] :=
  ⟨rfl, by decide⟩

/-- C2 counterexample: the two distinct inputs `p/x.txt` and `q/x.txt` both
resolve to archive name `x.txt`; the build raises no error and writes both
entries under the same name. -/
theorem C2_counterexample :
    ((create_zip_with_multiple_files
        [(["p", "x.txt"], ⟨[1], 0, 0o644, true⟩), (["q", "x.txt"], ⟨[2], 0, 0o644, true⟩)]
        "z.zip" ["p/x.txt", "q/x.txt"] false true).entries.map ZipEntry.filename)
      = ["x.txt", "x.txt"] ∧
    (create_zip_with_multiple_files
        [(["p", "x.txt"], ⟨[1], 0, 0o644, true⟩), (["q", "x.txt"], ⟨[2], 0, 0o644, true⟩)]
        "z.zip" ["p/x.txt", "q/x.txt"] false true).error = none := by decide

/-- C2 (amended): no duplicate-name check exists.  On a clean run every
resolved entry is written, duplicates included: for every name, the number
of written entries carrying it equals the number of collected pairs that
resolved to it. -/
theorem C2_theorem (fs : FS) (zf : String) (paths : List String) (ps det : Bool) (name : String)
    (h : (create_zip_with_multiple_files fs zf paths ps det).error = none) :
    ((create_zip_with_multiple_files fs zf paths ps det).entries.map ZipEntry.filename).count name
      = ((collect fs ps (pySorted paths)).1.map Prod.snd).count name := by
  have h' : (writeEntries fs det (pySortByArc (collect fs ps (pySorted paths)).1)).2.2 = none := h
  have hn := writeEntries_names_of_ok h'
  have he : (create_zip_with_multiple_files fs zf paths ps det).entries.map ZipEntry.filename =
      (pySortByArc (collect fs ps (pySorted paths)).1).map Prod.snd := hn
  rw [he]
  exact ((List.perm_insertionSort arcLe _).map Prod.snd).count_eq name

/-- C2 witness: a concrete clean build where two inputs collide on
`n.txt`; both occurrences are preserved. -/
theorem C2_witness :
    ((create_zip_with_multiple_files
        [(["w2a", "n.txt"], ⟨[1], 0, 0o644, true⟩), (["w2b", "n.txt"], ⟨[2], 0, 0o644, true⟩)]
        "w.zip" ["w2a/n.txt", "w2b/n.txt"] false true).entries.map ZipEntry.filename).count "n.txt"
      = (((collect
          [(["w2a", "n.txt"], ⟨[1], 0, 0o644, true⟩), (["w2b", "n.txt"], ⟨[2], 0, 0o644, true⟩)]
          false (pySorted ["w2a/n.txt", "w2b/n.txt"])).1).map Prod.snd).count "n.txt" :=
  C2_theorem
    [(["w2a", "n.txt"], ⟨[1], 0, 0o644, true⟩), (["w2b", "n.txt"], ⟨[2], 0, 0o644, true⟩)]
    "w.zip" ["w2a/n.txt", "w2b/n.txt"] false true "n.txt" (by decide)

/-- C3: with a fixed filesystem state (the same directory `d` holding
`A.txt` and `a.txt` with the same contents — the two filesystem values are
permutations of each other, differing only in enumeration order) and
`deterministic=True`, the two builds produce different archives: the
case-insensitive sorts tie on `A.txt` vs `a.txt` and Python's stable sort
falls back to the enumeration order, contradicting both the claim and the
function's own docstring ("Ensures IDENTICAL output"). -/
theorem C3_theorem :
    ([(["d", "A.txt"], ⟨[1], 0, 0o644, true⟩), (["d", "a.txt"], ⟨[2], 0, 0o644, true⟩)] : FS).Perm
      [(["d", "a.txt"], ⟨[2], 0, 0o644, true⟩), (["d", "A.txt"], ⟨[1], 0, 0o644, true⟩)] ∧
    create_zip_with_multiple_files
        [(["d", "A.txt"], ⟨[1], 0, 0o644, true⟩), (["d", "a.txt"], ⟨[2], 0, 0o644, true⟩)]
        "lambda_deployment.zip" ["./d"] false true ≠
      create_zip_with_multiple_files
        [(["d", "a.txt"], ⟨[2], 0, 0o644, true⟩), (["d", "A.txt"], ⟨[1], 0, 0o644, true⟩)]
        "lambda_deployment.zip" ["./d"] false true :=
  ⟨List.Perm.swap _ _ _, by decide⟩

/-- C4: `sorted(paths)` on line 22 makes the build a function of the
multiset of input paths: permuting the caller-supplied list yields an
identical build result (archive bytes, output, and hash-free return). -/
theorem C4_theorem (fs : FS) (zf : String) (paths paths2 : List String) (ps : Bool)
    (h : paths.Perm paths2) :
    create_zip_with_multiple_files fs zf paths2 ps true =
      create_zip_with_multiple_files fs zf paths ps true := by
  unfold create_zip_with_multiple_files
  rw [pySorted_eq_of_perm h.symm]

/-- C4 witness: swapping two concrete input paths leaves the build result
unchanged. -/
theorem C4_witness :
    (["qq.txt", "pp.txt"] : List String).Perm ["pp.txt", "qq.txt"] ∧
    create_zip_with_multiple_files
        [(["pp.txt"], ⟨[1], 0, 0o644, true⟩), (["qq.txt"], ⟨[2], 0, 0o644, true⟩)]
        "w.zip" ["pp.txt", "qq.txt"] false true =
      create_zip_with_multiple_files
        [(["pp.txt"], ⟨[1], 0, 0o644, true⟩), (["qq.txt"], ⟨[2], 0, 0o644, true⟩)]
        "w.zip" ["qq.txt", "pp.txt"] false true :=
  ⟨List.Perm.swap "pp.txt" "qq.txt" [],
   C4_theorem [(["pp.txt"], ⟨[1], 0, 0o644, true⟩), (["qq.txt"], ⟨[2], 0, 0o644, true⟩)]
     "w.zip" ["qq.txt", "pp.txt"] ["pp.txt", "qq.txt"] false
     (List.Perm.swap "pp.txt" "qq.txt" [])⟩

/-- C5: with `deterministic=True` every written entry carries the fixed
1980-01-01 00:00:00 timestamp, deflate compression at level 6, size equal
to the byte length of its content, and external attributes `0o755 <<< 16`
exactly when its source file is executable (extension in the fixed
allow-list or an execute bit on the host file) and `0o644 <<< 16`
otherwise; the source file's mtime and its non-execute permission bits do
not influence the entry (replacing them leaves the entry unchanged). -/
theorem C5_theorem (fs : FS) (zf : String) (paths : List String) (ps : Bool) (e : ZipEntry)
    (h : e ∈ (create_zip_with_multiple_files fs zf paths ps true).entries) :
    e.date_time = (1980, 1, 1, 0, 0, 0) ∧
    e.compress_type = ZIP_DEFLATED ∧
    e.compresslevel = 6 ∧
    e.file_size = e.data.length ∧
    ∃ fp m, lookupMeta fs fp = some m ∧ m.readable = true ∧ e.data = m.content ∧
      e.external_attr = (if is_executable fp m then 0o755 else 0o644) <<< 16 ∧
      ∀ t mo rd, anyExecBit mo = anyExecBit m.mode →
        mkEntry true fp ⟨m.content, t, mo, rd⟩ e.filename = mkEntry true fp m e.filename := by
  have h' : e ∈ (writeEntries fs true (pySortByArc (collect fs ps (pySorted paths)).1)).1 := h
  obtain ⟨fp, arc, m, _, hlk, hrd, he⟩ := mem_writeEntries h'
  subst he
  refine ⟨rfl, rfl, rfl, rfl, fp, m, hlk, hrd, rfl, ?_, ?_⟩
  · by_cases hex : is_executable fp m
    · simp [mkEntry, hex]
      decide
    · simp [mkEntry, hex]
      decide
  · intro t mo rd hx
    simp [mkEntry, is_executable, hx]

/-- C5 witness: a concrete deterministic build of `run.sh` (executable by
extension, mode 0o600 without execute bits, mtime 7). -/
theorem C5_witness :
    (mkEntry true "run.sh" ⟨[35, 33], 7, 0o600, true⟩ "run.sh").date_time = (1980, 1, 1, 0, 0, 0) ∧
    (mkEntry true "run.sh" ⟨[35, 33], 7, 0o600, true⟩ "run.sh").compress_type = ZIP_DEFLATED ∧
    (mkEntry true "run.sh" ⟨[35, 33], 7, 0o600, true⟩ "run.sh").compresslevel = 6 ∧
    (mkEntry true "run.sh" ⟨[35, 33], 7, 0o600, true⟩ "run.sh").file_size =
      (mkEntry true "run.sh" ⟨[35, 33], 7, 0o600, true⟩ "run.sh").data.length ∧
    ∃ fp m, lookupMeta [(["run.sh"], ⟨[35, 33], 7, 0o600, true⟩)] fp = some m ∧
      m.readable = true ∧
      (mkEntry true "run.sh" ⟨[35, 33], 7, 0o600, true⟩ "run.sh").data = m.content ∧
      (mkEntry true "run.sh" ⟨[35, 33], 7, 0o600, true⟩ "run.sh").external_attr =
        (if is_executable fp m then 0o755 else 0o644) <<< 16 ∧
      ∀ t mo rd, anyExecBit mo = anyExecBit m.mode →
        mkEntry true fp ⟨m.content, t, mo, rd⟩
            (mkEntry true "run.sh" ⟨[35, 33], 7, 0o600, true⟩ "run.sh").filename =
          mkEntry true fp m (mkEntry true "run.sh" ⟨[35, 33], 7, 0o600, true⟩ "run.sh").filename :=
  C5_theorem [(["run.sh"], ⟨[35, 33], 7, 0o600, true⟩)] "w.zip" ["run.sh"] false
    (mkEntry true "run.sh" ⟨[35, 33], 7, 0o600, true⟩ "run.sh") (by decide)

/-- C6 counterexample: two builds whose collected entries carry the same
two archive names `A.txt` and `a.txt` (equal up to case) write them in
different orders, depending on which input produced which name: the
case-insensitive sort ties, and Python's stable sort falls back to the
collection (input/walk) order, so the write order is not the
case-insensitive lexicographic order of the names alone. -/
theorem C6_counterexample :
    ((create_zip_with_multiple_files
        [(["p", "A.txt"], ⟨[1], 0, 0o644, true⟩), (["q", "a.txt"], ⟨[2], 0, 0o644, true⟩)]
        "z.zip" ["p/A.txt", "q/a.txt"] false true).entries.map ZipEntry.filename)
      = ["A.txt", "a.txt"] ∧
    ((create_zip_with_multiple_files
        [(["p", "a.txt"], ⟨[2], 0, 0o644, true⟩), (["q", "A.txt"], ⟨[1], 0, 0o644, true⟩)]
        "z.zip" ["p/a.txt", "q/A.txt"] false true).entries.map ZipEntry.filename)
      = ["a.txt", "A.txt"] ∧
    (["A.txt", "a.txt"] : List String) ≠ ["a.txt", "A.txt"] := by decide

/-- C6 (amended): the write order is the global stable sort of all
collected entries by lowercased archive name: it is always weakly sorted
under the case-insensitive name order, and on a clean run it is exactly the
stable sort of the collection order (so names equal up to case keep their
per-input/walk collection order as tie-break). -/
theorem C6_theorem (fs : FS) (zf : String) (paths : List String) (ps det : Bool) :
    ((create_zip_with_multiple_files fs zf paths ps det).entries.map
      ZipEntry.filename).Pairwise arcNameLe ∧
    ((create_zip_with_multiple_files fs zf paths ps det).error = none →
      (create_zip_with_multiple_files fs zf paths ps det).entries.map ZipEntry.filename =
        (pySortByArc (collect fs ps (pySorted paths)).1).map Prod.snd) := by
  constructor
  · have hs : (pySortByArc (collect fs ps (pySorted paths)).1).Pairwise arcLe :=
      List.sorted_insertionSort arcLe _
    have hmap : ((pySortByArc (collect fs ps (pySorted paths)).1).map
        Prod.snd).Pairwise arcNameLe :=
      List.Pairwise.map Prod.snd (fun _ _ hab => hab) hs
    obtain ⟨n, hn⟩ :=
      writeEntries_names_take fs det (pySortByArc (collect fs ps (pySorted paths)).1)
    have he : (create_zip_with_multiple_files fs zf paths ps det).entries.map ZipEntry.filename =
        ((pySortByArc (collect fs ps (pySorted paths)).1).map Prod.snd).take n := hn
    rw [he]
    exact List.Pairwise.sublist (List.take_sublist n _) hmap
  · intro he
    exact writeEntries_names_of_ok he

/-- C6 witness: the amended statement instantiated at a concrete clean
build. -/
theorem C6_witness :
    ((create_zip_with_multiple_files [(["f.txt"], ⟨[9], 0, 0o644, true⟩)]
      "w.zip" ["f.txt"] false true).entries.map ZipEntry.filename).Pairwise arcNameLe ∧
    (create_zip_with_multiple_files [(["f.txt"], ⟨[9], 0, 0o644, true⟩)]
        "w.zip" ["f.txt"] false true).entries.map ZipEntry.filename =
      (pySortByArc (collect [(["f.txt"], ⟨[9], 0, 0o644, true⟩)] false
        (pySorted ["f.txt"])).1).map Prod.snd :=
  ⟨(C6_theorem [(["f.txt"], ⟨[9], 0, 0o644, true⟩)] "w.zip" ["f.txt"] false true).1,
   (C6_theorem [(["f.txt"], ⟨[9], 0, 0o644, true⟩)] "w.zip" ["f.txt"] false true).2 (by decide)⟩

/-- C7 counterexample: with inputs `missing.txt` (absent) and `real.txt`
(present) the build raises no error at all: it prints a warning for the
missing path, continues, and archives the remaining input. -/
theorem C7_counterexample :
    (create_zip_with_multiple_files [(["real.txt"], ⟨[5], 0, 0o644, true⟩)]
      "z.zip" ["missing.txt", "real.txt"] false true).error = none ∧
    (create_zip_with_multiple_files [(["real.txt"], ⟨[5], 0, 0o644, true⟩)]
        "z.zip" ["missing.txt", "real.txt"] false true).printed =
      ["Warning: Path not found: missing.txt", "Added file: real.txt -> real.txt"] ∧
    ((create_zip_with_multiple_files [(["real.txt"], ⟨[5], 0, 0o644, true⟩)]
      "z.zip" ["missing.txt", "real.txt"] false true).entries.map ZipEntry.filename)
      = ["real.txt"] := by decide

/-- C7 (amended): missing input paths never fail resolution: the build
prints exactly one `Warning: Path not found` line per non-existing path (in
sorted input order) and otherwise proceeds; any raised error comes from the
write phase alone. -/
theorem C7_theorem (fs : FS) (zf : String) (paths : List String) (ps det : Bool) :
    (create_zip_with_multiple_files fs zf paths ps det).printed =
      ((pySorted paths).filter (fun p => !(pathExists fs p))).map
        (fun p => "Warning: Path not found: " ++ p) ++
      (writeEntries fs det (pySortByArc (collect fs ps (pySorted paths)).1)).2.1 ∧
    (create_zip_with_multiple_files fs zf paths ps det).error =
      (writeEntries fs det (pySortByArc (collect fs ps (pySorted paths)).1)).2.2 := by
  refine ⟨?_, rfl⟩
  show (collect fs ps (pySorted paths)).2 ++
    (writeEntries fs det (pySortByArc (collect fs ps (pySorted paths)).1)).2.1 = _
  rw [collect_warnings fs ps (pySorted paths)]

/-- C8 counterexample: for input `["./a_dir"]` with `a_dir` holding `x.txt`
and `y.txt`, the flattened build names the entries `a_dir/x.txt` and
`a_dir/y.txt` (relative to the directory's parent), not `x.txt` and
`y.txt`. -/
theorem C8_counterexample :
    ((create_zip_with_multiple_files
        [(["a_dir", "x.txt"], ⟨[104, 105], 0, 0o644, true⟩),
         (["a_dir", "y.txt"], ⟨[98, 121, 101], 0, 0o644, true⟩)]
        "z.zip" ["./a_dir"] false true).entries.map ZipEntry.filename)
      = ["a_dir/x.txt", "a_dir/y.txt"] ∧
    ¬ "x.txt" ∈ ((create_zip_with_multiple_files
        [(["a_dir", "x.txt"], ⟨[104, 105], 0, 0o644, true⟩),
         (["a_dir", "y.txt"], ⟨[98, 121, 101], 0, 0o644, true⟩)]
        "z.zip" ["./a_dir"] false true).entries.map ZipEntry.filename) := by decide

/-- C8 (amended): the same build in full: the two entries are named
`a_dir/x.txt` and `a_dir/y.txt`, each with the fixed 1980-01-01 timestamp,
`0o644 <<< 16` external attributes, deflate (method 8) at level 6, and size
equal to the content's byte length. -/
theorem C8_theorem :
    (create_zip_with_multiple_files
        [(["a_dir", "x.txt"], ⟨[104, 105], 0, 0o644, true⟩),
         (["a_dir", "y.txt"], ⟨[98, 121, 101], 0, 0o644, true⟩)]
        "z.zip" ["./a_dir"] false true).entries =
      [{ filename := "a_dir/x.txt", date_time := (1980, 1, 1, 0, 0, 0),
         external_attr := 0o644 <<< 16, compress_type := 8, compresslevel := 6,
         file_size := 2, data := [104, 105] },
       { filename := "a_dir/y.txt", date_time := (1980, 1, 1, 0, 0, 0),
         external_attr := 0o644 <<< 16, compress_type := 8, compresslevel := 6,
         file_size := 3, data := [98, 121, 101] }] := by decide

/-- C9 counterexample: `a.txt` is written, then reading `b.txt` raises; the
exception propagates and the partially written archive (holding `a.txt`)
remains at the destination — there is no temporary file, atomic rename, or
cleanup in the code. -/
theorem C9_counterexample :
    (create_zip_with_multiple_files
        [(["a.txt"], ⟨[1], 0, 0o644, true⟩), (["b.txt"], ⟨[2], 0, 0o644, false⟩)]
        "z.zip" ["a.txt", "b.txt"] false true).error = some ("PermissionError: " ++ "b.txt") ∧
    (create_zip_with_multiple_files
        [(["a.txt"], ⟨[1], 0, 0o644, true⟩), (["b.txt"], ⟨[2], 0, 0o644, false⟩)]
        "z.zip" ["a.txt", "b.txt"] false true).entries ≠ [] := by decide

/-- C9 (amended): the destination always holds the entries of an initial
segment of the canonically sorted collection — the whole list on a clean
run, and a partial archive (the entries written before the failure) when a
write-phase error aborts the build; the partial output is not removed. -/
theorem C9_theorem (fs : FS) (zf : String) (paths : List String) (ps det : Bool) :
    ∃ n, (create_zip_with_multiple_files fs zf paths ps det).entries =
        ((pySortByArc (collect fs ps (pySorted paths)).1).take n).filterMap (entryOf fs det) ∧
      ((create_zip_with_multiple_files fs zf paths ps det).error = none →
        n = (pySortByArc (collect fs ps (pySorted paths)).1).length) :=
  writeEntries_partial fs det (pySortByArc (collect fs ps (pySorted paths)).1)

/-- C9 witness: the amended statement at a concrete build. -/
theorem C9_witness :
    ∃ n, (create_zip_with_multiple_files [(["ok.txt"], ⟨[7], 0, 0o644, true⟩)]
        "w.zip" ["ok.txt"] false true).entries =
        ((pySortByArc (collect [(["ok.txt"], ⟨[7], 0, 0o644, true⟩)] false
          (pySorted ["ok.txt"])).1).take n).filterMap
          (entryOf [(["ok.txt"], ⟨[7], 0, 0o644, true⟩)] true) ∧
      ((create_zip_with_multiple_files [(["ok.txt"], ⟨[7], 0, 0o644, true⟩)]
          "w.zip" ["ok.txt"] false true).error = none →
        n = (pySortByArc (collect [(["ok.txt"], ⟨[7], 0, 0o644, true⟩)] false
          (pySorted ["ok.txt"])).1).length) :=
  C9_theorem [(["ok.txt"], ⟨[7], 0, 0o644, true⟩)] "w.zip" ["ok.txt"] false true

/-- C10: with `deterministic=False` every written entry copies its
timestamp from the source file's `st_mtime` (via `time.localtime`) and its
permission word from the source file's `st_mode & 0o777`, so the archive
bytes depend on live filesystem metadata. -/
theorem C10_theorem (fs : FS) (zf : String) (paths : List String) (ps : Bool) (e : ZipEntry)
    (h : e ∈ (create_zip_with_multiple_files fs zf paths ps false).entries) :
    ∃ fp m, lookupMeta fs fp = some m ∧ m.readable = true ∧
      e = mkEntry false fp m e.filename ∧
      e.date_time = localtime6 m.mtime ∧
      e.external_attr = (m.mode &&& 0o777) <<< 16 ∧
      e.data = m.content := by
  have h' : e ∈ (writeEntries fs false (pySortByArc (collect fs ps (pySorted paths)).1)).1 := h
  obtain ⟨fp, arc, m, _, hlk, hrd, he⟩ := mem_writeEntries h'
  subst he
  exact ⟨fp, m, hlk, hrd, rfl, rfl, rfl, rfl⟩

/-- C10 witness: a concrete non-deterministic build of `old.txt` with mtime
86399 and mode 0o640. -/
theorem C10_witness :
    ∃ fp m, lookupMeta [(["old.txt"], ⟨[9], 86399, 0o640, true⟩)] fp = some m ∧
      m.readable = true ∧
      mkEntry false "old.txt" ⟨[9], 86399, 0o640, true⟩ "old.txt" =
        mkEntry false fp m
          (mkEntry false "old.txt" ⟨[9], 86399, 0o640, true⟩ "old.txt").filename ∧
      (mkEntry false "old.txt" ⟨[9], 86399, 0o640, true⟩ "old.txt").date_time =
        localtime6 m.mtime ∧
      (mkEntry false "old.txt" ⟨[9], 86399, 0o640, true⟩ "old.txt").external_attr =
        (m.mode &&& 0o777) <<< 16 ∧
      (mkEntry false "old.txt" ⟨[9], 86399, 0o640, true⟩ "old.txt").data = m.content :=
  C10_theorem [(["old.txt"], ⟨[9], 86399, 0o640, true⟩)] "w.zip" ["old.txt"] false
    (mkEntry false "old.txt" ⟨[9], 86399, 0o640, true⟩ "old.txt") (by decide)
